import Mathlib

/-!
Verification of the multi-strategy paginated product scraper
(`scraper.py`, class `ProductScraper`) against its design document.

The Python source is shallowly embedded: parsed JSON documents become the
inductive `JsonVal`, Python dicts built by the extractors become ordered
association lists (`RawProduct`), HTML soups and container elements become
records of selector-query functions, and the pagination loops become
fuel-bounded recursions (the fuel is exactly the remaining page budget of
the `while current_page <= max_pages` loop with `max_pages = 10`).
-/

namespace Scraper

/-- A parsed JSON value, as returned by Python's `json.loads`.
Numeric literals are represented by their source text (Python distinguishes
numbers from strings; none of the verified properties inspects numeric
magnitude, only presence and string-ness). -/
inductive JsonVal where
  | null : JsonVal
  | bool : Bool → JsonVal
  | num : String → JsonVal
  | str : String → JsonVal
  | arr : List JsonVal → JsonVal
  | obj : List (String × JsonVal) → JsonVal

/-- A product record as built by the extraction strategies: a Python dict
with insertion-ordered keys, embedded as an association list. -/
abbrev RawProduct := List (String × JsonVal)

/-- Python truthiness (`if x:`) for the JSON-derived values that flow
through the scraper: `None`, `False`, zero, the empty string, the empty
list and the empty dict are falsy.  A JSON numeric literal denotes zero
exactly when its mantissa has no nonzero digit. -/
def pyTruthy : JsonVal → Bool
  | JsonVal.null => false
  | JsonVal.bool b => b
  | JsonVal.num s => s.toList.any (fun c => c.isDigit && c != '0')
  | JsonVal.str s => s != ""
  | JsonVal.arr xs => !xs.isEmpty
  | JsonVal.obj kvs => !kvs.isEmpty

/-- Python's `str(...)` on a JSON-derived value (used on the `brand` field
at scraper.py line 114).  The renderings of lists and dicts abstract
Python's `repr`-based text; no verified property inspects those cases. -/
def pyStr : JsonVal → String
  | JsonVal.null => "None"
  | JsonVal.bool b => if b then "True" else "False"
  | JsonVal.num s => s
  | JsonVal.str s => s
  | JsonVal.arr _ => "<list>"
  | JsonVal.obj _ => "<dict>"

/-- Python dict assignment `d[k] = v` on an insertion-ordered dict:
an existing key keeps its position, a new key is appended at the end. -/
def dset : List (String × JsonVal) → String → JsonVal → List (String × JsonVal)
  | [], k, v => [(k, v)]
  | (k', v') :: rest, k, v =>
    if k' = k then (k, v) :: rest else (k', v') :: dset rest k v

/-- The keys of a product record, in insertion order. -/
def dkeys (d : RawProduct) : List String := d.map Prod.fst

/-! ## Price normalizer (`_clean_price`, scraper.py lines 331-338) -/

/-- The character class kept by the regex `[^\d.,]` substitution:
digits, period and comma survive, everything else is removed. -/
def keepPriceChar (c : Char) : Bool := c.isDigit || c = '.' || c = ','

/-- Python's `str.strip()`: drop whitespace from both ends.  (Python's
whitespace set is slightly larger than `Char.isWhitespace`; the difference
is irrelevant here because `_clean_price` strips only post-filter text that
contains no whitespace of either kind.) -/
def pyStrip (l : List Char) : List Char :=
  ((l.dropWhile Char.isWhitespace).reverse.dropWhile Char.isWhitespace).reverse

/-- `_clean_price`: on falsy (empty) input return `''`; otherwise delete
every character outside `[\d.,]` and strip the remainder. -/
def clean_price (s : String) : String :=
  if s = "" then ""
  else String.mk (pyStrip (s.toList.filter keepPriceChar))

/-! ## Page-URL construction (`_build_page_url`, scraper.py lines 340-363) -/

/-- Line 356: `'?' in base_url` — whether the URL already has a query
string, i.e. contains a `'?'` character. -/
def hasQuery (s : String) : Bool := s.toList.contains '?'

/-- Line 360: `base_url.endswith('/')`. -/
def endsWithSlash (s : String) : Bool := s.toList.getLast? == some '/'

/-- `_build_page_url`: page 1 is the base URL verbatim; later pages append
`&page=N` when the base already has a query string, else a `page/N/` path
segment (inserting a `/` separator only when the base does not already end
with one). -/
def build_page_url (base_url : String) (page_number : Nat) : String :=
  if page_number = 1 then base_url
  else if hasQuery base_url then base_url ++ "&page=" ++ toString page_number
  else if endsWithSlash base_url then base_url ++ "page/" ++ toString page_number ++ "/"
  else base_url ++ "/page/" ++ toString page_number ++ "/"

/-! ## JSON-LD structured-data extraction
(`_parse_json_ld_product`, scraper.py lines 107-150, and
`_extract_json_ld_products`, lines 77-105) -/

/-- `d.get(k, dflt)` on a Python dict embedded as an association list. -/
def objGet (kvs : List (String × JsonVal)) (k : String) (dflt : JsonVal) : JsonVal :=
  (kvs.lookup k).getD dflt

/-- Lines 122-123: a list-shaped `offers` is replaced by its first element
(the truthiness guard means the list case is never empty when reached). -/
def firstOffer : JsonVal → JsonVal
  | JsonVal.arr (x :: _) => x
  | v => v

/-- Lines 119-127: `offers = data.get('offers', {})`; when truthy, a list is
replaced by its first element and `price`/`currency`/`availability` are read
with `.get`.  A truthy non-dict `offers` raises `AttributeError` at
`offers.get`, which the enclosing `except` turns into `None` for the whole
product — hence the `Option` result. -/
def applyOffers (kvs : List (String × JsonVal)) (p : RawProduct) : Option RawProduct :=
  if pyTruthy (objGet kvs "offers" (JsonVal.obj [])) then
    match firstOffer (objGet kvs "offers" (JsonVal.obj [])) with
    | JsonVal.obj os =>
      some (dset (dset (dset p "price" (objGet os "price" (JsonVal.str "")))
        "currency" (objGet os "priceCurrency" (JsonVal.str "")))
        "availability" (objGet os "availability" (JsonVal.str "")))
    | _ => Option.none
  else some p

/-- Lines 129-137: `if 'image' in data:` — a string image fills both
`image_urls` and `main_image_url`; a list fills `image_urls` raw and takes
its head (or `''`) as `main_image_url`; any other shape sets nothing. -/
def applyImage (kvs : List (String × JsonVal)) (p : RawProduct) : RawProduct :=
  match kvs.lookup "image" with
  | some (JsonVal.str s) =>
    dset (dset p "image_urls" (JsonVal.arr [JsonVal.str s])) "main_image_url" (JsonVal.str s)
  | some (JsonVal.arr xs) =>
    dset (dset p "image_urls" (JsonVal.arr xs)) "main_image_url"
      (match xs with | x :: _ => x | [] => JsonVal.str "")
  | _ => p

/-- Lines 139-143: `rating_data = data.get('aggregateRating', {})`; when
truthy, `ratingValue`/`reviewCount` are read with one-argument `.get`
(default `None`).  A truthy non-dict raises, discarding the product. -/
def applyRating (kvs : List (String × JsonVal)) (p : RawProduct) : Option RawProduct :=
  if pyTruthy (objGet kvs "aggregateRating" (JsonVal.obj [])) then
    match objGet kvs "aggregateRating" (JsonVal.obj []) with
    | JsonVal.obj rs =>
      some (dset (dset p "rating" (objGet rs "ratingValue" JsonVal.null))
        "review_count" (objGet rs "reviewCount" JsonVal.null))
    | _ => Option.none
  else some p

/-- `_parse_json_ld_product`: a dict whose `@type` equals `'Product'` is
mapped to a record; any other value (including non-dicts, whose attribute
access raises and is caught at line 147) yields `None`.  The initial dict
literal of lines 111-117 carries exactly `title`, `description`, `brand`,
`sku`, `image_urls`. -/
def parse_json_ld_product (data : JsonVal) : Option RawProduct :=
  match data with
  | JsonVal.obj kvs =>
    match kvs.lookup "@type" with
    | some (JsonVal.str t) =>
      if t = "Product" then
        let brand := match kvs.lookup "brand" with
          | some (JsonVal.obj bkvs) => objGet bkvs "name" (JsonVal.str "")
          | some v => JsonVal.str (pyStr v)
          | none => JsonVal.str (pyStr (JsonVal.str ""))
        let p0 : RawProduct :=
          [("title", objGet kvs "name" (JsonVal.str "")),
           ("description", objGet kvs "description" (JsonVal.str "")),
           ("brand", brand),
           ("sku", objGet kvs "sku" (JsonVal.str "")),
           ("image_urls", JsonVal.arr [])]
        match applyOffers kvs p0 with
        | some p1 => applyRating kvs (applyImage kvs p1)
        | Option.none => Option.none
      else Option.none
    | _ => Option.none
  | _ => Option.none

/-- The decode outcome of one `<script type="application/ld+json">` block:
`decoded v` — `script.string` is text that `json.loads` parses to `v`;
`malformed` — `script.string` is text on which `json.loads` raises
`json.JSONDecodeError`;
`emptyTag` — the tag has no text child, so `script.string` is `None` and
`json.loads(None)` raises `TypeError` (not a `JSONDecodeError`). -/
inductive ScriptBlock where
  | decoded : JsonVal → ScriptBlock
  | malformed : ScriptBlock
  | emptyTag : ScriptBlock

/-- `_extract_json_ld_products`: the blocks are scanned in order.  A
`malformed` block hits the inner `except json.JSONDecodeError` (line 99)
and is skipped with `continue`.  An `emptyTag` block raises `TypeError`,
which the inner handler does not catch; the outer `except Exception`
(lines 102-104) catches it, abandoning the loop, so the products gathered
from the preceding blocks are returned and every later block is skipped.
A decoded top-level array is flattened per element; any other decoded
value is parsed as a single candidate. -/
def extract_json_ld_products : List ScriptBlock → List RawProduct
  | [] => []
  | ScriptBlock.malformed :: rest => extract_json_ld_products rest
  | ScriptBlock.emptyTag :: _ => []
  | ScriptBlock.decoded data :: rest =>
    (match data with
     | JsonVal.arr items => items.filterMap parse_json_ld_product
     | d => (parse_json_ld_product d).toList) ++ extract_json_ld_products rest

/-! ## HTML model

BeautifulSoup objects are embedded by their selector-query interface: all
the scraper does with a parsed page is run `select`/`select_one` CSS
queries and read text/attributes off the results. -/

/-- A matched HTML element: its stripped text (`get_text(strip=True)`) and
its attribute dict. -/
structure Elem where
  text : String
  attrs : List (String × String)

/-- A product container element (one tile), queried via `select_one`.
`selOne s = some e` models `select_one(s)` returning a truthy tag
(BeautifulSoup tags with no contents are falsy and behave as a miss in the
`if elem:` guards, so they are modelled as `none`). -/
structure CNode where
  selOne : String → Option Elem

/-- A parsed page: its JSON-LD script blocks, its `select` view for the
container-tile queries, its `select_one`/`select` views for the
single-product-page queries, and the verdict of `_has_next_page` on it
(that helper inspects only fixed next-link selectors and pagination-link
URLs of the same soup, so it is carried as a per-page boolean). -/
structure Soup where
  scripts : List ScriptBlock
  sel : String → List CNode
  selOne : String → Option Elem
  selAll : String → List Elem
  hasNext : Bool

/-- Abstraction of `urllib.parse.urljoin`: an absolute reference is kept,
a relative one is attached to the base.  No verified property inspects the
resolved URL text, only where it is stored. -/
def urljoin (base rel : String) : String :=
  if rel = "" then base
  else if (rel.splitOn "://").length > 1 then rel
  else if base.endsWith "/" then base ++ rel
  else base ++ "/" ++ rel

/-- Lines 233 and 311: `img.get('src') or img.get('data-src')` with
Python's falsy-`or` (a present-but-empty `src` falls through). -/
def imgSrc (e : Elem) : Option String :=
  match e.attrs.lookup "src" with
  | some s => if s = "" then e.attrs.lookup "data-src" else some s
  | none => e.attrs.lookup "data-src"

/-- First element matched by a ranked selector list (`for selector in ...:
if elem: ... break`). -/
def firstMatch (q : String → Option Elem) (sels : List String) : Option Elem :=
  sels.findSome? q

/-- The regex `(\d+(?:\.\d+)?)` applied from a digit position: maximal
digit run, optionally followed by `.` and a further maximal digit run. -/
def numToken (l : List Char) : List Char :=
  let ds := l.takeWhile Char.isDigit
  match l.dropWhile Char.isDigit with
  | '.' :: rest =>
    match rest with
    | d :: _ => if d.isDigit then ds ++ '.' :: rest.takeWhile Char.isDigit else ds
    | [] => ds
  | _ => ds

/-- `re.search(r'(\d+(?:\.\d+)?)', text)`: the first numeric token, if any. -/
def firstNumber : List Char → Option (List Char)
  | [] => Option.none
  | c :: rest => if c.isDigit then some (numToken (c :: rest)) else firstNumber rest

/-- Line 197-200 of scraper.py. -/
def title_selectors : List String :=
  [".product-title", ".product-name", "h2", "h3", "h4", ".title", ".name",
   "[data-product-title]"]

/-- Line 208-211. -/
def price_selectors : List String :=
  [".price", ".product-price", ".cost", ".amount", "[data-price]",
   ".price-current", ".sale-price"]

/-- Line 220-223. -/
def original_price_selectors : List String :=
  [".original-price", ".regular-price", ".was-price", ".price-old",
   ".strike-through"]

/-- Line 157-167. -/
def product_selectors : List String :=
  [".product-item", ".product", ".product-card", ".woocommerce-product",
   ".shop-item", ".product-box", "[data-product-id]", ".product-tile",
   ".item-product"]

/-- The `product` dict built by `_extract_product_from_container` (lines
180-245): start from the full default dict of lines 183-194, fill
title/price/original_price from ranked selector lists, the first `img`'s
resolved source, and the first numeric token of a rating element. -/
def container_record (c : CNode) (base_url : String) : RawProduct :=
  let p : RawProduct :=
    [("title", JsonVal.str ""),
     ("description", JsonVal.str ""),
     ("price", JsonVal.str ""),
     ("original_price", JsonVal.str ""),
     ("brand", JsonVal.str ""),
     ("category", JsonVal.str ""),
     ("image_urls", JsonVal.arr []),
     ("main_image_url", JsonVal.str ""),
     ("rating", JsonVal.null),
     ("review_count", JsonVal.null)]
  let p := match firstMatch c.selOne title_selectors with
    | some e => dset p "title" (JsonVal.str e.text)
    | none => p
  let p := match firstMatch c.selOne price_selectors with
    | some e => dset p "price" (JsonVal.str (clean_price e.text))
    | none => p
  let p := match firstMatch c.selOne original_price_selectors with
    | some e => dset p "original_price" (JsonVal.str (clean_price e.text))
    | none => p
  let p := match c.selOne "img" with
    | some img =>
      match imgSrc img with
      | some s =>
        if s = "" then p
        else dset (dset p "main_image_url" (JsonVal.str (urljoin base_url s)))
          "image_urls" (JsonVal.arr [JsonVal.str (urljoin base_url s)])
      | none => p
    | none => p
  match c.selOne ".rating, .stars, [data-rating]" with
  | some e =>
    match firstNumber e.text.toList with
    | some tok => dset p "rating" (JsonVal.num (String.mk tok))
    | none => p
  | none => p

/-- Line 246: `return product if product['title'] else None` — the built
`product` dict survives only with a truthy title. -/
def extract_product_from_container (c : CNode) (base_url : String) : Option RawProduct :=
  let p := container_record c base_url
  if pyTruthy (objGet p "title" JsonVal.null) then some p else Option.none

/-- `_extract_container_products` (lines 152-178): the first container
selector that matches at least one element wins; its first 20 matches are
extracted and the per-container misses dropped. -/
def extract_container_products (soup : Soup) (base_url : String) : List RawProduct :=
  match product_selectors.find? (fun s => !(soup.sel s).isEmpty) with
  | some s =>
    ((soup.sel s).take 20).filterMap (fun c => extract_product_from_container c base_url)
  | none => []

/-- Line 270-273. -/
def single_title_selectors : List String :=
  ["h1.product-title", "h1.entry-title", "h1.product_title", "h1",
   ".product-name h1", ".product-title"]

/-- Line 281-284. -/
def desc_selectors : List String :=
  [".product-description", ".product-details", ".entry-content",
   ".product-summary", ".short-description", "#tab-description"]

/-- Line 292-295. -/
def single_price_selectors : List String :=
  [".price .amount", ".product-price", ".price-current", ".sale-price",
   ".woocommerce-Price-amount"]

/-- Line 303-306. -/
def img_selectors : List String :=
  [".product-images img", ".product-gallery img",
   ".woocommerce-product-gallery img"]

/-- The `product` dict built by `_extract_single_product` (lines 252-324):
default dict of lines 255-267 (which, unlike the container dict, also
carries `sku`), ranked selector fills, description truncated to 1000
characters, up to 5 gallery images from the first matching gallery
selector. -/
def single_record (soup : Soup) (url : String) : RawProduct :=
  let p : RawProduct :=
    [("title", JsonVal.str ""),
     ("description", JsonVal.str ""),
     ("price", JsonVal.str ""),
     ("original_price", JsonVal.str ""),
     ("brand", JsonVal.str ""),
     ("category", JsonVal.str ""),
     ("sku", JsonVal.str ""),
     ("image_urls", JsonVal.arr []),
     ("main_image_url", JsonVal.str ""),
     ("rating", JsonVal.null),
     ("review_count", JsonVal.null)]
  let p := match firstMatch soup.selOne single_title_selectors with
    | some e => dset p "title" (JsonVal.str e.text)
    | none => p
  let p := match firstMatch soup.selOne desc_selectors with
    | some e => dset p "description" (JsonVal.str (String.mk (e.text.toList.take 1000)))
    | none => p
  let p := match firstMatch soup.selOne single_price_selectors with
    | some e => dset p "price" (JsonVal.str (clean_price e.text))
    | none => p
  let p := match img_selectors.findSome? (fun s =>
      let es := soup.selAll s
      if es.isEmpty then Option.none else some es) with
    | some es =>
      let urls := (es.take 5).filterMap (fun im =>
        match imgSrc im with
        | some s => if s = "" then Option.none else some (urljoin url s)
        | none => Option.none)
      let p := dset p "image_urls" (JsonVal.arr (urls.map JsonVal.str))
      if urls.isEmpty then p
      else dset p "main_image_url" (JsonVal.str (urls.headD ""))
    | none => p
  match soup.selOne ".sku, [data-sku]" with
  | some e => dset p "sku" (JsonVal.str e.text)
  | none => p

/-- Line 325: `return product if product['title'] else None`. -/
def extract_single_product (soup : Soup) (url : String) : Option RawProduct :=
  let p := single_record soup url
  if pyTruthy (objGet p "title" JsonVal.null) then some p else Option.none

/-! ## Pagination controller
(`scrape_products`, scraper.py lines 16-75, and
`scrape_products_with_progress`, lines 413-512) -/

/-- The per-page strategy dispatch of lines 36-52 / 452-468: JSON-LD
results, else container results, else (page 1 only) the single-product
record. -/
def select_strategies (jsonLd containerP : List RawProduct)
    (single : Option RawProduct) (pageNum : Nat) : List RawProduct :=
  if !jsonLd.isEmpty then jsonLd
  else if !containerP.isEmpty then containerP
  else if pageNum = 1 then single.toList
  else []

/-- Everything one fetched page contributes: the three strategies applied
to its soup, dispatched by priority. -/
def page_products_of (soup : Soup) (page_url : String) (pageNum : Nat) : List RawProduct :=
  select_strategies (extract_json_ld_products soup.scripts)
    (extract_container_products soup page_url)
    (extract_single_product soup page_url) pageNum

/-- The products page `n` of a site yields, with its page URL built by
`_build_page_url` from the run's base URL.  `site` abstracts
`fetch ∘ parse`: the soup obtained for each page number. -/
def pageYield (url : String) (site : Nat → Soup) (n : Nat) : List RawProduct :=
  page_products_of (site n) (build_page_url url n) n

/-- The `while current_page <= max_pages` loop of lines 24-68, by fuel:
`fuel` is the number of page budget slots left (`max_pages - current + 1`).
Returns the accumulated products and the list of page numbers fetched. -/
def scrape_aux (url : String) (site : Nat → Soup) :
    Nat → Nat → List RawProduct → List RawProduct × List Nat
  | _, 0, acc => (acc, [])
  | current, fuel + 1, acc =>
    let pp := pageYield url site current
    if pp.isEmpty then (acc, [current])
    else if (site current).hasNext then
      let r := scrape_aux url site (current + 1) fuel (acc ++ pp)
      (r.1, current :: r.2)
    else (acc ++ pp, [current])

/-- `scrape_products`: start at page 1 with `max_pages = 10` (line 22). -/
def scrape_products (url : String) (site : Nat → Soup) : List RawProduct × List Nat :=
  scrape_aux url site 1 10 []

/-- The external collaborators of the progress-tracked entry point:
`job n` is the status `ScrapingJob.query.get(job_id)` reports when polled
before page `n` (`none` = no such job), and the `commit*` oracles give the
success of each `db.session.commit()` call site (page-start progress at
lines 434-439, found-count progress at lines 482-487, the end-of-pagination
update at lines 492-494, and the final update at lines 501-505). -/
structure JobEnv where
  job : Nat → Option String
  commitPageOk : Nat → Bool
  commitFoundOk : Nat → Bool
  commitNoNextOk : Nat → Bool
  commitFinalOk : Bool

/-- Line 427: `job and job.status in ['cancelled', 'paused']`. -/
def isStopStatus : Option String → Bool
  | some st => st == "cancelled" || st == "paused"
  | none => false

/-- The final update of lines 500-505: its `db.session.commit()` is not
wrapped in `try/except`, so its failure escapes to the re-raising handler
at lines 510-512. -/
def finalize (env : JobEnv) (hasJob : Bool) (acc : List RawProduct) :
    Except Unit (List RawProduct) :=
  if hasJob then
    if env.commitFinalOk then Except.ok acc else Except.error ()
  else Except.ok acc

/-- The loop of `scrape_products_with_progress` (lines 424-508), by fuel.
`lastJob` carries whether the most recent poll found a job (the Python
`job` variable outlives the loop and is reused by the final update).
The page-start and found-count commits are wrapped in `try/except` that
logs and rolls back, so their outcome cannot influence the result; the
oracles are consulted and discarded exactly as those handlers discard the
exception.  The end-of-pagination commit (line 494) and the final commit
(line 505) are unguarded.  Returns the fetched page numbers and either the
product list or the escaped error. -/
def swp_aux (url : String) (site : Nat → Soup) (env : JobEnv) :
    Nat → Nat → Bool → List RawProduct → List Nat × Except Unit (List RawProduct)
  | _, 0, lastJob, acc => ([], finalize env lastJob acc)
  | current, fuel + 1, _, acc =>
    let hasJob := (env.job current).isSome
    if isStopStatus (env.job current) then ([], Except.ok acc)
    else
      let _ := env.commitPageOk current
      let pp := pageYield url site current
      if pp.isEmpty then ([current], finalize env hasJob acc)
      else
        let acc2 := acc ++ pp
        let _ := env.commitFoundOk current
        if (site current).hasNext then
          let r := swp_aux url site env (current + 1) fuel hasJob acc2
          (current :: r.1, r.2)
        else
          if hasJob then
            if env.commitNoNextOk current then ([current], finalize env hasJob acc2)
            else ([current], Except.error ())
          else ([current], finalize env hasJob acc2)

/-- `scrape_products_with_progress`: page 1, `max_pages = 10` (line 422). -/
def scrape_products_with_progress (url : String) (site : Nat → Soup) (env : JobEnv) :
    List Nat × Except Unit (List RawProduct) :=
  swp_aux url site env 1 10 false []

/-- Whether a run completed without an escaped exception. -/
def runOk : Except Unit (List RawProduct) → Bool
  | Except.ok _ => true
  | Except.error _ => false

/-! ## Concrete test fixtures, used by the witness and counterexample
theorems below. -/

/-- A well-formed JSON-LD `Product` block. -/
def pjWidget : JsonVal :=
  JsonVal.obj [("@type", JsonVal.str "Product"), ("name", JsonVal.str "Widget")]

/-- A page carrying one JSON-LD product and a next-page signal. -/
def soupP : Soup :=
  { scripts := [ScriptBlock.decoded pjWidget], sel := fun _ => [], selOne := fun _ => Option.none,
    selAll := fun _ => [], hasNext := true }

/-- A page carrying one JSON-LD product and no next-page signal. -/
def soupPEnd : Soup :=
  { scripts := [ScriptBlock.decoded pjWidget], sel := fun _ => [], selOne := fun _ => Option.none,
    selAll := fun _ => [], hasNext := false }

/-- A page yielding nothing from any strategy (but still advertising a
next page, to exercise the zero-products stop rule). -/
def soupEmpty : Soup :=
  { scripts := [], sel := fun _ => [], selOne := fun _ => Option.none,
    selAll := fun _ => [], hasNext := true }

/-- A site whose every page has products and a next link. -/
def siteAll : Nat → Soup := fun _ => soupP

/-- A site whose page 1 has products and a next link, all later pages
empty. -/
def siteOne : Nat → Soup := fun n => if n = 1 then soupP else soupEmpty

/-- A single-page site: products on page 1, no next link. -/
def siteEnd : Nat → Soup := fun _ => soupPEnd

/-- A container tile whose `h2` holds the title. -/
def wContainer : CNode :=
  { selOne := fun s => if s = "h2" then some ⟨"Cool Widget", []⟩ else Option.none }

/-- The record `wContainer` extracts: all defaults except the title. -/
def wcRec : RawProduct :=
  [("title", JsonVal.str "Cool Widget"), ("description", JsonVal.str ""),
   ("price", JsonVal.str ""), ("original_price", JsonVal.str ""),
   ("brand", JsonVal.str ""), ("category", JsonVal.str ""),
   ("image_urls", JsonVal.arr []), ("main_image_url", JsonVal.str ""),
   ("rating", JsonVal.null), ("review_count", JsonVal.null)]

/-- The record the JSON-LD parser produces for `pjWidget`: only the five
keys of the initial dict literal. -/
def wjRec : RawProduct :=
  [("title", JsonVal.str "Widget"), ("description", JsonVal.str ""),
   ("brand", JsonVal.str ""), ("sku", JsonVal.str ""),
   ("image_urls", JsonVal.arr [])]

/-- A job that is running, with every commit succeeding. -/
def envRun : JobEnv :=
  { job := fun _ => some "running", commitPageOk := fun _ => true,
    commitFoundOk := fun _ => true, commitNoNextOk := fun _ => true,
    commitFinalOk := true }

/-- A running job whose end-of-pagination commit fails. -/
def envNoNextFail : JobEnv :=
  { job := fun _ => some "running", commitPageOk := fun _ => true,
    commitFoundOk := fun _ => true, commitNoNextOk := fun _ => false,
    commitFinalOk := true }

/-- A running job whose final-update commit (line 505) fails. -/
def envFinalFail : JobEnv :=
  { job := fun _ => some "running", commitPageOk := fun _ => true,
    commitFoundOk := fun _ => true, commitNoNextOk := fun _ => true,
    commitFinalOk := false }

/-- A job observed cancelled before page 2. -/
def envCancel2 : JobEnv :=
  { job := fun n => if n = 2 then some "cancelled" else some "running",
    commitPageOk := fun _ => true, commitFoundOk := fun _ => true,
    commitNoNextOk := fun _ => true, commitFinalOk := true }

/-- Whether a record holds a non-empty string under its `title` key. -/
def titleNonempty (p : RawProduct) : Bool :=
  match p.lookup "title" with
  | some (JsonVal.str t) => t != ""
  | _ => false

/-! ## Helper lemmas -/

theorem lookup_dset_self (d : List (String × JsonVal)) (k : String) (v : JsonVal) :
    (dset d k v).lookup k = some v := by
  induction d with
  | nil => simp [dset]
  | cons kv rest ih =>
    obtain ⟨a, b⟩ := kv
    by_cases h : a = k
    · subst h; simp [dset]
    · have hbe : (k == a) = false := beq_eq_false_iff_ne.mpr (Ne.symm h)
      simp only [dset, if_neg h, List.lookup_cons, hbe, ih]

theorem lookup_dset_other (d : List (String × JsonVal)) (k k' : String) (v : JsonVal)
    (h : k ≠ k') : (dset d k' v).lookup k = d.lookup k := by
  have hbe : (k == k') = false := beq_eq_false_iff_ne.mpr h
  induction d with
  | nil => simp [dset, List.lookup_cons, hbe]
  | cons kv rest ih =>
    obtain ⟨a, b⟩ := kv
    by_cases ha : a = k'
    · subst ha
      simp [dset, List.lookup_cons, hbe]
    · simp only [dset, if_neg ha, List.lookup_cons]
      cases hak : (k == a) <;> simp [hak, ih]

theorem dkeys_dset_mem (d : RawProduct) (k : String) (v : JsonVal) :
    k ∈ dkeys d → dkeys (dset d k v) = dkeys d := by
  induction d with
  | nil => intro h; simp [dkeys] at h
  | cons kv rest ih =>
    obtain ⟨a, b⟩ := kv
    intro h
    by_cases ha : a = k
    · subst ha; simp [dset, dkeys]
    · have hmem : k ∈ dkeys rest := by
        rcases (by simpa [dkeys] using h) with h1 | h1
        · exact absurd h1.symm ha
        · simpa [dkeys] using h1
      have ih' := ih hmem
      simp only [dset, if_neg ha]
      simp only [dkeys, List.map_cons] at ih' ⊢
      rw [ih']

theorem lookup_isSome_dset (d : List (String × JsonVal)) (k k' : String) (v : JsonVal)
    (h : (d.lookup k).isSome) : ((dset d k' v).lookup k).isSome := by
  by_cases hk : k = k'
  · subst hk; simp [lookup_dset_self]
  · rwa [lookup_dset_other d k k' v hk]

theorem keep_not_ws (c : Char) (h : keepPriceChar c = true) :
    c.isWhitespace = false := by
  cases hw : c.isWhitespace with
  | false => rfl
  | true =>
    exfalso
    have h1 : c = ' ' ∨ c = '\t' ∨ c = '\r' ∨ c = '\n' := by
      simpa [Char.isWhitespace, or_assoc] using hw
    rcases h1 with h1 | h1 | h1 | h1 <;> subst h1 <;> exact absurd h (by decide)

theorem dropWhile_eq_self_of_not (p : Char → Bool) (l : List Char)
    (h : ∀ c ∈ l, p c = false) : l.dropWhile p = l := by
  cases l with
  | nil => rfl
  | cons a rest => simp [List.dropWhile_cons, h a (by simp)]

theorem pyStrip_eq_self (l : List Char) (h : ∀ c ∈ l, c.isWhitespace = false) :
    pyStrip l = l := by
  unfold pyStrip
  rw [dropWhile_eq_self_of_not _ l h,
      dropWhile_eq_self_of_not _ l.reverse (fun c hc => h c (by simpa using hc)),
      List.reverse_reverse]

theorem mem_pyStrip (c : Char) (l : List Char) (h : c ∈ pyStrip l) : c ∈ l := by
  unfold pyStrip at h
  have h1 := List.dropWhile_sublist (l := (l.dropWhile Char.isWhitespace).reverse)
    (p := Char.isWhitespace)
  have h2 := List.dropWhile_sublist (l := l) (p := Char.isWhitespace)
  have := h1.mem (by simpa using h)
  exact h2.mem (by simpa using this)

theorem clean_price_chars (s : String) :
    ∀ c ∈ (clean_price s).toList, keepPriceChar c = true := by
  intro c hc
  unfold clean_price at hc
  by_cases hs : s = ""
  · simp [hs] at hc
  · simp only [hs, if_false] at hc
    have hc' : c ∈ (s.toList.filter keepPriceChar) :=
      mem_pyStrip c _ (by simpa using hc)
    exact (List.mem_filter.mp hc').2

theorem clean_price_fixed (s : String)
    (h : ∀ c ∈ s.toList, keepPriceChar c = true) : clean_price s = s := by
  unfold clean_price
  by_cases hs : s = ""
  · simp [hs]
  · simp only [hs, if_false]
    rw [List.filter_eq_self.mpr h, pyStrip_eq_self _ (fun c hc => keep_not_ws c (h c hc))]
    cases s; rfl

theorem clean_price_idem (s : String) :
    clean_price (clean_price s) = clean_price s :=
  clean_price_fixed (clean_price s) (clean_price_chars s)

theorem container_record_title (c : CNode) (b : String) :
    ∃ s : String, (container_record c b).lookup "title" = some (JsonVal.str s) := by
  unfold container_record
  repeat' split
  all_goals simp [dset, List.lookup]

theorem container_record_keys (c : CNode) (b : String) :
    dkeys (container_record c b) =
      ["title", "description", "price", "original_price", "brand", "category",
       "image_urls", "main_image_url", "rating", "review_count"] := by
  unfold container_record
  repeat' split
  all_goals simp [dset, dkeys]

theorem single_record_title (soup : Soup) (u : String) :
    ∃ s : String, (single_record soup u).lookup "title" = some (JsonVal.str s) := by
  unfold single_record
  repeat' split
  all_goals simp [dset, List.lookup]
  all_goals repeat' split
  all_goals simp [dset, List.lookup]

theorem single_record_keys (soup : Soup) (u : String) :
    dkeys (single_record soup u) =
      ["title", "description", "price", "original_price", "brand", "category",
       "sku", "image_urls", "main_image_url", "rating", "review_count"] := by
  unfold single_record
  repeat' split
  all_goals simp [dset, dkeys]
  all_goals repeat' split
  all_goals simp [dset, dkeys]

theorem applyOffers_lookup_isSome (kvs : List (String × JsonVal)) (p q : RawProduct)
    (k : String) (hq : applyOffers kvs p = some q) (h : (p.lookup k).isSome) :
    (q.lookup k).isSome := by
  unfold applyOffers at hq
  split at hq
  · split at hq
    · cases hq
      exact lookup_isSome_dset _ _ _ _ (lookup_isSome_dset _ _ _ _
        (lookup_isSome_dset _ _ _ _ h))
    · exact Option.noConfusion hq
  · cases hq; exact h

theorem applyImage_lookup_isSome (kvs : List (String × JsonVal)) (p : RawProduct)
    (k : String) (h : (p.lookup k).isSome) : ((applyImage kvs p).lookup k).isSome := by
  unfold applyImage
  repeat' split
  all_goals first
    | exact h
    | exact lookup_isSome_dset _ _ _ _ (lookup_isSome_dset _ _ _ _ h)

theorem applyRating_lookup_isSome (kvs : List (String × JsonVal)) (p q : RawProduct)
    (k : String) (hq : applyRating kvs p = some q) (h : (p.lookup k).isSome) :
    (q.lookup k).isSome := by
  unfold applyRating at hq
  split at hq
  · split at hq
    · cases hq
      exact lookup_isSome_dset _ _ _ _ (lookup_isSome_dset _ _ _ _ h)
    · exact Option.noConfusion hq
  · cases hq; exact h

theorem runOk_finalize (env : JobEnv) (hj : Bool) (acc : List RawProduct)
    (hfin : env.commitFinalOk = true) : runOk (finalize env hj acc) = true := by
  unfold finalize
  split
  · simp [hfin, runOk]
  · rfl

theorem scrape_aux_trace_le (url : String) (site : Nat → Soup) :
    ∀ (fuel c : Nat) (acc : List RawProduct),
      (scrape_aux url site c fuel acc).2.length ≤ fuel := by
  intro fuel
  induction fuel with
  | zero => intro c acc; simp [scrape_aux]
  | succ f ih =>
    intro c acc
    simp only [scrape_aux]
    split
    · simp
    · split
      · have := ih (c + 1) (acc ++ pageYield url site c)
        simp only [List.length_cons]
        omega
      · simp

theorem swp_aux_trace_le (url : String) (site : Nat → Soup) (env : JobEnv) :
    ∀ (fuel c : Nat) (lj : Bool) (acc : List RawProduct),
      (swp_aux url site env c fuel lj acc).1.length ≤ fuel := by
  intro fuel
  induction fuel with
  | zero => intro c lj acc; simp [swp_aux]
  | succ f ih =>
    intro c lj acc
    simp only [swp_aux]
    split
    · simp
    · split
      · simp
      · split
        · have := ih (c + 1) ((env.job c).isSome) (acc ++ pageYield url site c)
          simp only [List.length_cons]
          omega
        · split
          · split <;> simp
          · simp

theorem scrape_aux_all (url : String) (site : Nat → Soup)
    (h : ∀ n, (pageYield url site n).isEmpty = false ∧ (site n).hasNext = true) :
    ∀ (fuel c : Nat) (acc : List RawProduct),
      scrape_aux url site c fuel acc
        = (acc ++ (List.range' c fuel).flatMap (pageYield url site),
           List.range' c fuel) := by
  intro fuel
  induction fuel with
  | zero => intro c acc; simp [scrape_aux]
  | succ f ih =>
    intro c acc
    simp only [scrape_aux, (h c).1, (h c).2]
    rw [ih (c + 1) (acc ++ pageYield url site c)]
    simp [List.range'_succ, List.flatMap_cons, List.append_assoc]

theorem scrape_aux_empty_stop (url : String) (site : Nat → Soup) :
    ∀ (k c fuel : Nat) (acc : List RawProduct), k < fuel →
    (∀ m, c ≤ m → m < c + k →
      (pageYield url site m).isEmpty = false ∧ (site m).hasNext = true) →
    (pageYield url site (c + k)).isEmpty = true →
    scrape_aux url site c fuel acc
      = (acc ++ (List.range' c k).flatMap (pageYield url site),
         List.range' c (k + 1)) := by
  intro k
  induction k with
  | zero =>
    intro c fuel acc hf hgood hempty
    obtain ⟨f, rfl⟩ : ∃ f, fuel = f + 1 := ⟨fuel - 1, by omega⟩
    simp only [Nat.add_zero] at hempty
    simp [scrape_aux, hempty]
  | succ k ih =>
    intro c fuel acc hf hgood hempty
    obtain ⟨f, rfl⟩ : ∃ f, fuel = f + 1 := ⟨fuel - 1, by omega⟩
    have hc := hgood c (Nat.le_refl c) (by omega)
    simp only [scrape_aux, hc.1, hc.2]
    rw [ih (c + 1) f (acc ++ pageYield url site c) (by omega)
        (fun m hm1 hm2 => hgood m (by omega) (by omega))
        (by have heq : c + 1 + k = c + (k + 1) := by omega
            rw [heq]; exact hempty)]
    simp [List.range'_succ, List.flatMap_cons, List.append_assoc]

theorem swp_aux_cancel (url : String) (site : Nat → Soup) (env : JobEnv) :
    ∀ (k c fuel : Nat) (lj : Bool) (acc : List RawProduct), k < fuel →
    (∀ m, c ≤ m → m < c + k →
      (pageYield url site m).isEmpty = false ∧ (site m).hasNext = true
        ∧ isStopStatus (env.job m) = false) →
    isStopStatus (env.job (c + k)) = true →
    swp_aux url site env c fuel lj acc
      = (List.range' c k,
         Except.ok (acc ++ (List.range' c k).flatMap (pageYield url site))) := by
  intro k
  induction k with
  | zero =>
    intro c fuel lj acc hf hgood hstop
    obtain ⟨f, rfl⟩ : ∃ f, fuel = f + 1 := ⟨fuel - 1, by omega⟩
    simp only [Nat.add_zero] at hstop
    simp [swp_aux, hstop]
  | succ k ih =>
    intro c fuel lj acc hf hgood hstop
    obtain ⟨f, rfl⟩ : ∃ f, fuel = f + 1 := ⟨fuel - 1, by omega⟩
    have hc := hgood c (Nat.le_refl c) (by omega)
    simp only [swp_aux, hc.1, hc.2, hc.2.2]
    rw [ih (c + 1) f ((env.job c).isSome) (acc ++ pageYield url site c) (by omega)
        (fun m hm1 hm2 => hgood m (by omega) (by omega))
        (by have heq : c + 1 + k = c + (k + 1) := by omega
            rw [heq]; exact hstop)]
    simp [List.range'_succ, List.flatMap_cons, List.append_assoc]

theorem swp_aux_ok (url : String) (site : Nat → Soup) (env : JobEnv)
    (hno : ∀ n, env.commitNoNextOk n = true) (hfin : env.commitFinalOk = true) :
    ∀ (fuel c : Nat) (lj : Bool) (acc : List RawProduct),
      runOk (swp_aux url site env c fuel lj acc).2 = true := by
  intro fuel
  induction fuel with
  | zero => intro c lj acc; exact runOk_finalize env lj acc hfin
  | succ f ih =>
    intro c lj acc
    simp only [swp_aux]
    split
    · rfl
    · split
      · exact runOk_finalize env _ _ hfin
      · split
        · exact ih (c + 1) ((env.job c).isSome) (acc ++ pageYield url site c)
        · split
          · split
            · exact runOk_finalize env _ _ hfin
            · rename_i hcf
              exact absurd (hno c) hcf
          · exact runOk_finalize env _ _ hfin

theorem swp_aux_all_ok (url : String) (site : Nat → Soup) (env : JobEnv)
    (hgood : ∀ n, (pageYield url site n).isEmpty = false ∧ (site n).hasNext = true
      ∧ isStopStatus (env.job n) = false)
    (hfin : env.commitFinalOk = true) :
    ∀ (fuel c : Nat) (lj : Bool) (acc : List RawProduct),
      swp_aux url site env c fuel lj acc
        = (List.range' c fuel,
           Except.ok (acc ++ (List.range' c fuel).flatMap (pageYield url site))) := by
  intro fuel
  induction fuel with
  | zero =>
    intro c lj acc
    simp [swp_aux, finalize, hfin]
  | succ f ih =>
    intro c lj acc
    have hc := hgood c
    simp only [swp_aux, hc.1, hc.2.1, hc.2.2]
    rw [ih (c + 1) ((env.job c).isSome) (acc ++ pageYield url site c)]
    simp [List.range'_succ, List.flatMap_cons, List.append_assoc]

theorem swp_aux_cap_fail (url : String) (site : Nat → Soup) (env : JobEnv)
    (hgood : ∀ n, (pageYield url site n).isEmpty = false ∧ (site n).hasNext = true
      ∧ isStopStatus (env.job n) = false ∧ (env.job n).isSome = true)
    (hfin : env.commitFinalOk = false) :
    ∀ (fuel c : Nat) (lj : Bool) (acc : List RawProduct), (lj = true ∨ 0 < fuel) →
      swp_aux url site env c fuel lj acc = (List.range' c fuel, Except.error ()) := by
  intro fuel
  induction fuel with
  | zero =>
    intro c lj acc hl
    have hlj : lj = true := by
      rcases hl with h | h
      · exact h
      · omega
    subst hlj
    simp [swp_aux, finalize, hfin]
  | succ f ih =>
    intro c lj acc _
    have hc := hgood c
    simp only [swp_aux, hc.1, hc.2.1, hc.2.2.1]
    rw [ih (c + 1) ((env.job c).isSome) (acc ++ pageYield url site c)
        (Or.inl hc.2.2.2)]
    simp [List.range'_succ]

theorem swp_aux_env_indep (url : String) (site : Nat → Soup)
    (j : Nat → Option String) (po fo po' fo' no : Nat → Bool) (fin : Bool) :
    ∀ (fuel c : Nat) (lj : Bool) (acc : List RawProduct),
      swp_aux url site ⟨j, po, fo, no, fin⟩ c fuel lj acc
        = swp_aux url site ⟨j, po', fo', no, fin⟩ c fuel lj acc := by
  intro fuel
  induction fuel with
  | zero => intro c lj acc; rfl
  | succ f ih =>
    intro c lj acc
    simp only [swp_aux, ih, finalize]

/-! ## Claim theorems -/

/-- C6: page-URL construction — page 1 is the base URL verbatim; for page
N>1 a base with a query string gets `&page=N`, any other base gets a
`page/N/` path segment with the slash separator inserted only when needed;
the two spec examples evaluate as stated. -/
theorem build_page_url_spec (base : String) (n : Nat) :
    build_page_url base 1 = base
    ∧ (1 < n → hasQuery base = true →
        build_page_url base n = base ++ "&page=" ++ toString n)
    ∧ (1 < n → hasQuery base = false →
        build_page_url base n =
          (if endsWithSlash base then base ++ "page/" ++ toString n ++ "/"
           else base ++ "/page/" ++ toString n ++ "/"))
    ∧ build_page_url "https://shop.example/cat" 3 = "https://shop.example/cat/page/3/"
    ∧ build_page_url "https://shop.example/cat?x=1" 3 = "https://shop.example/cat?x=1&page=3" := by
  refine ⟨by simp [build_page_url], ?_, ?_, by decide, by decide⟩
  · intro h1 h2
    have hne : n ≠ 1 := by omega
    simp [build_page_url, hne, h2]
  · intro h1 h2
    have hne : n ≠ 1 := by omega
    simp [build_page_url, hne, h2]

theorem build_page_url_spec_witness :
    build_page_url "a?b" 2 = "a?b" ++ "&page=" ++ toString 2
    ∧ build_page_url "c" 2 =
        (if endsWithSlash "c" then "c" ++ "page/" ++ toString 2 ++ "/"
         else "c" ++ "/page/" ++ toString 2 ++ "/") :=
  ⟨(build_page_url_spec "a?b" 2).2.1 (by decide) (by decide),
   (build_page_url_spec "c" 2).2.2.1 (by decide) (by decide)⟩

/-- C7: the price normalizer keeps only digits, periods and commas; maps
the empty string to itself; is idempotent; leaves already-clean strings
unchanged; and sends `"$1,299.00 USD"` to `"1,299.00"`. -/
theorem clean_price_spec :
    (∀ s : String, ∀ c ∈ (clean_price s).toList, keepPriceChar c = true)
    ∧ clean_price "" = ""
    ∧ (∀ s : String, clean_price (clean_price s) = clean_price s)
    ∧ (∀ s : String, (∀ c ∈ s.toList, keepPriceChar c = true) → clean_price s = s)
    ∧ clean_price "$1,299.00 USD" = "1,299.00" :=
  ⟨clean_price_chars, rfl, clean_price_idem, clean_price_fixed, by decide⟩

theorem clean_price_spec_witness :
    keepPriceChar '1' = true ∧ clean_price "12.5" = "12.5" :=
  ⟨clean_price_spec.1 "12.5" '1' (by decide),
   clean_price_spec.2.2.2.1 "12.5" (by decide)⟩

/-- C8 counterexample: a structured-data block that is not JSON because
the script tag has no text at all (`script.string` is `None`) is fatal to
the rest of the page's structured-data scan — `json.loads(None)` raises
`TypeError`, which only the outer `except Exception` (scraper.py lines
102-104) catches, abandoning the loop.  A well-formed `Product` block
standing after such a block is not processed, although alone it yields a
product. -/
theorem jsonld_bad_block_cex :
    extract_json_ld_products [ScriptBlock.emptyTag, ScriptBlock.decoded pjWidget] = []
    ∧ extract_json_ld_products [ScriptBlock.decoded pjWidget] = [wjRec] :=
  ⟨rfl, rfl⟩

/-- C8 amended: a block whose text fails JSON decoding
(`json.JSONDecodeError`, inner handler at line 99) is skipped without
affecting any other block — deleting it leaves the extractor's output
unchanged; but a block with no text (`script.string` is `None`, raising
`TypeError` into the outer handler at lines 102-104) aborts the scan: the
products of the preceding blocks are kept and every later block is
skipped. -/
theorem jsonld_bad_block_amended :
    (∀ (pre post : List ScriptBlock),
        extract_json_ld_products (pre ++ ScriptBlock.malformed :: post)
          = extract_json_ld_products (pre ++ post))
    ∧ (∀ (pre post : List ScriptBlock),
        extract_json_ld_products (pre ++ ScriptBlock.emptyTag :: post)
          = extract_json_ld_products pre) := by
  constructor
  · intro pre post
    induction pre with
    | nil => simp [extract_json_ld_products]
    | cons a rest ih =>
      cases a <;> simp [extract_json_ld_products, List.append_eq, ih]
  · intro pre post
    induction pre with
    | nil => simp [extract_json_ld_products]
    | cons a rest ih =>
      cases a <;> simp [extract_json_ld_products, List.append_eq, ih]

/-- C1: per-page strategy priority — a non-empty JSON-LD yield is returned
alone (independently of what the other strategies would produce), the
container strategy's yield is used only when JSON-LD produced nothing, and
the single-product strategy contributes only on page 1 when both others
produced nothing. -/
theorem strategy_priority_spec (soup : Soup) (u : String) (n : Nat) :
    ((extract_json_ld_products soup.scripts).isEmpty = false →
        page_products_of soup u n = extract_json_ld_products soup.scripts)
    ∧ ((extract_json_ld_products soup.scripts).isEmpty = true →
        (extract_container_products soup u).isEmpty = false →
        page_products_of soup u n = extract_container_products soup u)
    ∧ ((extract_json_ld_products soup.scripts).isEmpty = true →
        (extract_container_products soup u).isEmpty = true →
        page_products_of soup u n =
          if n = 1 then (extract_single_product soup u).toList else [])
    ∧ (∀ (j c c' : List RawProduct) (s s' : Option RawProduct),
        j.isEmpty = false → select_strategies j c s n = select_strategies j c' s' n) := by
  refine ⟨?_, ?_, ?_, ?_⟩
  · intro h; simp [page_products_of, select_strategies, h]
  · intro h1 h2; simp [page_products_of, select_strategies, h1, h2]
  · intro h1 h2; simp [page_products_of, select_strategies, h1, h2]
  · intro j c c' s s' h; simp [select_strategies, h]

theorem strategy_priority_witness :
    page_products_of soupP "u" 1 = extract_json_ld_products soupP.scripts :=
  (strategy_priority_spec soupP "u" 1).1 rfl

/-- C2 counterexample: a JSON-LD block `{"@type": "Product"}` with no
`name` is emitted by the structured-data strategy with an empty title, so
not every emitted RawProduct has a non-empty title. -/
theorem title_required_cex :
    extract_json_ld_products
        [ScriptBlock.decoded (JsonVal.obj [("@type", JsonVal.str "Product")])]
      = [[("title", JsonVal.str ""), ("description", JsonVal.str ""),
          ("brand", JsonVal.str ""), ("sku", JsonVal.str ""),
          ("image_urls", JsonVal.arr [])]]
    ∧ titleNonempty [("title", JsonVal.str ""), ("description", JsonVal.str ""),
        ("brand", JsonVal.str ""), ("sku", JsonVal.str ""),
        ("image_urls", JsonVal.arr [])] = false :=
  ⟨rfl, rfl⟩

/-- C2 amended: the container and single-product strategies emit a record
only when a non-empty title was located (a container with no matching
title selector is dropped); the JSON-LD strategy enforces no such
invariant and can emit an empty-titled record. -/
theorem title_required_amended :
    (∀ (c : CNode) (b : String) (p : RawProduct),
        extract_product_from_container c b = some p → titleNonempty p = true)
    ∧ (∀ (soup : Soup) (u : String) (p : RawProduct),
        extract_single_product soup u = some p → titleNonempty p = true) := by
  constructor
  · intro c b p h
    obtain ⟨s, hs⟩ := container_record_title c b
    simp only [extract_product_from_container, objGet, hs, Option.getD_some,
      pyTruthy] at h
    split at h
    · rename_i hcond
      cases h
      simp only [titleNonempty, hs]
      exact hcond
    · exact Option.noConfusion h
  · intro soup u p h
    obtain ⟨s, hs⟩ := single_record_title soup u
    simp only [extract_single_product, objGet, hs, Option.getD_some,
      pyTruthy] at h
    split at h
    · rename_i hcond
      cases h
      simp only [titleNonempty, hs]
      exact hcond
    · exact Option.noConfusion h

theorem title_required_witness :
    titleNonempty wcRec = true :=
  title_required_amended.1 wContainer "b" wcRec rfl

/-- C10 counterexample: the JSON-LD record for a product with no offers,
image or aggregateRating omits the `price` (and `main_image_url`,
`rating`) keys entirely, rather than carrying them with default values. -/
theorem record_shape_cex :
    parse_json_ld_product pjWidget = some wjRec
    ∧ wjRec.lookup "price" = Option.none
    ∧ wjRec.lookup "main_image_url" = Option.none
    ∧ wjRec.lookup "rating" = Option.none :=
  ⟨rfl, rfl, rfl, rfl⟩

/-- C10 amended: container and single-product records always carry their
full default key set (the single-product set additionally has `sku`); a
JSON-LD record always carries the five keys of its initial dict literal
(`title`, `description`, `brand`, `sku`, `image_urls`), but gains
price/currency/availability, image, and rating keys only when the
corresponding source fields are present. -/
theorem record_shape_amended :
    (∀ (c : CNode) (b : String) (p : RawProduct),
        extract_product_from_container c b = some p →
        dkeys p = ["title", "description", "price", "original_price", "brand",
                   "category", "image_urls", "main_image_url", "rating",
                   "review_count"])
    ∧ (∀ (soup : Soup) (u : String) (p : RawProduct),
        extract_single_product soup u = some p →
        dkeys p = ["title", "description", "price", "original_price", "brand",
                   "category", "sku", "image_urls", "main_image_url", "rating",
                   "review_count"])
    ∧ (∀ (data : JsonVal) (p : RawProduct),
        parse_json_ld_product data = some p →
        (p.lookup "title").isSome = true ∧ (p.lookup "description").isSome = true
        ∧ (p.lookup "brand").isSome = true ∧ (p.lookup "sku").isSome = true
        ∧ (p.lookup "image_urls").isSome = true) := by
  refine ⟨?_, ?_, ?_⟩
  · intro c b p h
    simp only [extract_product_from_container] at h
    split at h
    · cases h; exact container_record_keys c b
    · exact Option.noConfusion h
  · intro soup u p h
    simp only [extract_single_product] at h
    split at h
    · cases h; exact single_record_keys soup u
    · exact Option.noConfusion h
  · intro data p h
    cases data <;> simp only [parse_json_ld_product] at h <;>
      try exact Option.noConfusion h
    rename_i kvs
    split at h
    case h_2 => exact Option.noConfusion h
    rename_i t hty
    split at h
    case isFalse => exact Option.noConfusion h
    split at h
    case h_2 => exact Option.noConfusion h
    rename_i p1 hOff
    refine ⟨?_, ?_, ?_, ?_, ?_⟩ <;>
      exact applyRating_lookup_isSome _ _ _ _ h
        (applyImage_lookup_isSome _ _ _
          (applyOffers_lookup_isSome _ _ _ _ hOff (by simp [List.lookup])))

theorem record_shape_witness :
    dkeys wcRec
      = ["title", "description", "price", "original_price", "brand",
         "category", "image_urls", "main_image_url", "rating",
         "review_count"] :=
  record_shape_amended.1 wContainer "b" wcRec rfl

/-- C3: when the first `N-1` pages yield products and signal continuation
but page `N` yields zero products from all strategies, the run fetches
exactly pages `1..N` — page `N+1` is never fetched, whatever continuation
signal page `N` carries — and returns the products of pages `1..N-1`. -/
theorem empty_page_stops_spec (url : String) (site : Nat → Soup) (N : Nat)
    (h1 : 1 ≤ N) (h2 : N ≤ 10)
    (h3 : ∀ m, 1 ≤ m → m < N →
      (pageYield url site m).isEmpty = false ∧ (site m).hasNext = true)
    (h4 : (pageYield url site N).isEmpty = true) :
    scrape_products url site
      = ((List.range' 1 (N - 1)).flatMap (pageYield url site), List.range' 1 N)
    ∧ (N + 1) ∉ (scrape_products url site).2 := by
  have key := scrape_aux_empty_stop url site (N - 1) 1 10 [] (by omega)
    (fun m hm1 hm2 => h3 m hm1 (by omega))
    (by have heq : 1 + (N - 1) = N := by omega
        rw [heq]; exact h4)
  have hN : N - 1 + 1 = N := by omega
  rw [hN, List.nil_append] at key
  refine ⟨key, ?_⟩
  show (N + 1) ∉ (scrape_aux url site 1 10 []).2
  rw [key]
  simp only [List.mem_range'_1, not_and]
  omega

theorem empty_page_stops_witness :
    scrape_products "u" siteOne
      = ((List.range' 1 1).flatMap (pageYield "u" siteOne), List.range' 1 2)
    ∧ (3 : Nat) ∉ (scrape_products "u" siteOne).2 :=
  empty_page_stops_spec "u" siteOne 2 (by omega) (by omega)
    (fun m hm1 hm2 => by
      have hm : m = 1 := by omega
      subst hm
      exact ⟨rfl, rfl⟩)
    rfl

/-- C4 counterexample: on a site whose every page yields products and
advertises a next page, with a running job whose final-update commit
(scraper.py line 505, outside any `try/except`) fails, the
progress-tracked run does reach the 10-page cap — but then raises out of
the re-raising handler (lines 510-512) instead of returning the results
gathered, so "returns all results gathered so far" fails for that entry
point. -/
theorem page_cap_cex :
    scrape_products_with_progress "u" siteAll envFinalFail
      = (List.range' 1 10, Except.error ())
    ∧ (pageYield "u" siteAll 1).isEmpty = false := by
  refine ⟨?_, rfl⟩
  exact swp_aux_cap_fail "u" siteAll envFinalFail
    (fun _ => ⟨rfl, rfl, rfl, rfl⟩) rfl 10 1 false [] (Or.inr (by omega))

/-- C4 amended: both entry points fetch at most 10 pages (the fixed
`max_pages` cap), even on a site whose every page yields products and
advertises a next page.  At the cap, `scrape_products` returns all
results gathered; `scrape_products_with_progress` does so too provided
the unguarded final-update commit succeeds (if it fails, the run raises
and the gathered results are lost). -/
theorem page_cap_spec (url : String) (site : Nat → Soup) (env : JobEnv) :
    (scrape_products url site).2.length ≤ 10
    ∧ (scrape_products_with_progress url site env).1.length ≤ 10
    ∧ ((∀ n, (pageYield url site n).isEmpty = false ∧ (site n).hasNext = true) →
        scrape_products url site
          = ((List.range' 1 10).flatMap (pageYield url site), List.range' 1 10))
    ∧ ((∀ n, (pageYield url site n).isEmpty = false ∧ (site n).hasNext = true
          ∧ isStopStatus (env.job n) = false) →
        env.commitFinalOk = true →
        scrape_products_with_progress url site env
          = (List.range' 1 10,
             Except.ok ((List.range' 1 10).flatMap (pageYield url site)))) := by
  refine ⟨scrape_aux_trace_le url site 10 1 [],
    swp_aux_trace_le url site env 10 1 false [], ?_, ?_⟩
  · intro h
    have key := scrape_aux_all url site h 10 1 []
    rw [List.nil_append] at key
    exact key
  · intro h hfin
    have key := swp_aux_all_ok url site env h hfin 10 1 false []
    rw [List.nil_append] at key
    exact key

theorem page_cap_witness :
    scrape_products "u" siteAll
      = ((List.range' 1 10).flatMap (pageYield "u" siteAll), List.range' 1 10)
    ∧ scrape_products_with_progress "u" siteAll envRun
      = (List.range' 1 10,
         Except.ok ((List.range' 1 10).flatMap (pageYield "u" siteAll))) :=
  ⟨(page_cap_spec "u" siteAll envRun).2.2.1 (fun _ => ⟨rfl, rfl⟩),
   (page_cap_spec "u" siteAll envRun).2.2.2 (fun _ => ⟨rfl, rfl, rfl⟩) rfl⟩

/-- C5: in the progress-tracked entry point, a `cancelled` or `paused`
status observed at the poll before page `N` makes the run return exactly
the products accumulated over pages `1..N-1`, and no page numbered `N` or
beyond is ever fetched. -/
theorem cancellation_spec (url : String) (site : Nat → Soup) (env : JobEnv) (N : Nat)
    (h1 : 1 ≤ N) (h2 : N ≤ 10)
    (h3 : ∀ m, 1 ≤ m → m < N →
      (pageYield url site m).isEmpty = false ∧ (site m).hasNext = true
        ∧ isStopStatus (env.job m) = false)
    (h4 : isStopStatus (env.job N) = true) :
    scrape_products_with_progress url site env
      = (List.range' 1 (N - 1),
         Except.ok ((List.range' 1 (N - 1)).flatMap (pageYield url site)))
    ∧ (∀ m, N ≤ m → m ∉ (scrape_products_with_progress url site env).1) := by
  have key := swp_aux_cancel url site env (N - 1) 1 10 false [] (by omega)
    (fun m hm1 hm2 => h3 m hm1 (by omega))
    (by have heq : 1 + (N - 1) = N := by omega
        rw [heq]; exact h4)
  rw [List.nil_append] at key
  refine ⟨key, ?_⟩
  intro m hm
  show m ∉ (swp_aux url site env 1 10 false []).1
  rw [key]
  simp only [List.mem_range'_1, not_and]
  omega

theorem cancellation_witness :
    scrape_products_with_progress "u" siteAll envCancel2
      = (List.range' 1 1,
         Except.ok ((List.range' 1 1).flatMap (pageYield "u" siteAll)))
    ∧ (∀ m, 2 ≤ m → m ∉ (scrape_products_with_progress "u" siteAll envCancel2).1) :=
  cancellation_spec "u" siteAll envCancel2 2 (by omega) (by omega)
    (fun m hm1 hm2 => by
      have hm : m = 1 := by omega
      subst hm
      exact ⟨rfl, rfl, rfl⟩)
    rfl

/-- C9 counterexample: with a running job, a single-page site (products on
page 1, no next link) and a failing end-of-pagination commit (line 494,
outside any `try/except`), the run raises instead of returning its
accumulated non-empty product list. -/
theorem progress_failure_cex :
    scrape_products_with_progress "u" siteEnd envNoNextFail = ([1], Except.error ())
    ∧ (pageYield "u" siteEnd 1).isEmpty = false :=
  ⟨rfl, rfl⟩

/-- C9 amended: failures of the per-page progress commits (page-start and
found-count updates, both wrapped in `try/except`) can never influence a
run's outcome; but the end-of-pagination and final-update commits are
unguarded, so a run is only sure to return its product list when those
succeed. -/
theorem progress_failure_amended :
    (∀ (url : String) (site : Nat → Soup) (j : Nat → Option String)
        (po fo po' fo' no : Nat → Bool) (fin : Bool),
        scrape_products_with_progress url site ⟨j, po, fo, no, fin⟩
          = scrape_products_with_progress url site ⟨j, po', fo', no, fin⟩)
    ∧ (∀ (url : String) (site : Nat → Soup) (env : JobEnv),
        (∀ n, env.commitNoNextOk n = true) → env.commitFinalOk = true →
        runOk (scrape_products_with_progress url site env).2 = true) :=
  ⟨fun url site j po fo po' fo' no fin =>
      swp_aux_env_indep url site j po fo po' fo' no fin 10 1 false [],
   fun url site env hno hfin => swp_aux_ok url site env hno hfin 10 1 false []⟩

theorem progress_failure_witness :
    scrape_products_with_progress "u" siteEnd
        ⟨fun _ => some "running", fun _ => false, fun _ => false,
         fun _ => true, true⟩
      = scrape_products_with_progress "u" siteEnd
        ⟨fun _ => some "running", fun _ => true, fun _ => true,
         fun _ => true, true⟩
    ∧ runOk (scrape_products_with_progress "u" siteEnd envRun).2 = true :=
  ⟨progress_failure_amended.1 "u" siteEnd (fun _ => some "running")
      (fun _ => false) (fun _ => false) (fun _ => true) (fun _ => true) (fun _ => true) true,
   progress_failure_amended.2 "u" siteEnd envRun (fun _ => rfl) rfl⟩

end Scraper
